import Mathlib

/-!
Verification of the vibrator-controller JNI layer
(`com_android_server_vibrator_VibratorController.cpp`).

The development shallowly embeds the pure logic of the source file:

* the PWLE (piecewise-linear envelope) compilation loop of
  `vibratorPerformPwleEffect`, with its two braking predicates
  `shouldBeReplacedWithBraking` and `shouldAddLastBraking`;
* the return-value computation of `vibratorOn`, `vibratorPerformPwleEffect`
  and friends over the `HalResult` trichotomy `Ok / Unsupported / Failed`;
* the field mapping of `vibratorGetInfo` (`valueOr(NAN)`,
  `valueOr(Capabilities::NONE)`, nullable arrays);
* the completion callback produced by
  `VibratorControllerWrapper::createCallback`, which captures the raw
  `this` pointer, modelled against an explicit heap of live controllers.

Machine floats of the source are modelled as rationals (the claims only use
exact comparisons with 0), `int32_t`/`int64_t` durations as `Int`.
-/

namespace VibratorController

/-- `aidl::Braking`: the braking kinds of the AIDL vibrator HAL. -/
inductive Braking
  | NONE
  | CLICK
deriving DecidableEq, Repr

/-- `aidl::ActivePwle`: one ramp segment of a piecewise envelope
(amplitudes and frequencies are machine floats in the source, `duration`
is `int32_t` milliseconds). -/
structure ActivePwle where
  startAmplitude : ℚ
  endAmplitude : ℚ
  startFrequency : ℚ
  endFrequency : ℚ
  duration : ℤ
deriving DecidableEq, Repr

/-- `aidl::BrakingPwle`: a pure braking segment. -/
structure BrakingPwle where
  braking : Braking
  duration : ℤ
deriving DecidableEq, Repr

/-- `aidl::PrimitivePwle`: tagged union of an active or a braking segment. -/
inductive PrimitivePwle
  | active (pwle : ActivePwle)
  | braking (pwle : BrakingPwle)
deriving DecidableEq, Repr

/-- Source `brakingPwle` (line 137): builds a `BrakingPwle` value. -/
def brakingPwle (braking : Braking) (duration : ℤ) : BrakingPwle :=
  { braking := braking, duration := duration }

/-- Source `shouldBeReplacedWithBraking` (line 157): braking is not NONE and
the active PWLE starts and ends with zero amplitude. -/
def shouldBeReplacedWithBraking (activePwle : ActivePwle) (braking : Braking) : Bool :=
  (braking != Braking.NONE) && (activePwle.startAmplitude == 0) &&
    (activePwle.endAmplitude == 0)

/-- Source `shouldAddLastBraking` (line 163): braking is not NONE and the
active PWLE only ends with zero amplitude. -/
def shouldAddLastBraking (lastActivePwle : ActivePwle) (braking : Braking) : Bool :=
  (braking != Braking.NONE) && (decide (lastActivePwle.startAmplitude > 0)) &&
    (lastActivePwle.endAmplitude == 0)

/-- The loop body of `vibratorPerformPwleEffect` (lines 306-319), recursing
over the remaining waveform; `size` is the full waveform length and `i` the
index of the current element.  Each iteration pushes either a braking
replacement (only when `i > 0`) or the segment itself, adds the original
segment's duration to the running total, and after the last element
(`i == size - 1`) possibly pushes one zero-duration braking segment. -/
def pwleLoop (braking : Braking) (size : ℕ) : ℕ → List ActivePwle → List PrimitivePwle × ℤ
  | _, [] => ([], 0)
  | i, activePwle :: rest =>
    let tail := pwleLoop braking size (i + 1) rest
    let pushed :=
      if (decide (i > 0)) && shouldBeReplacedWithBraking activePwle braking then
        PrimitivePwle.braking (brakingPwle braking activePwle.duration)
      else
        PrimitivePwle.active activePwle
    let trailing :=
      if (decide (i = size - 1)) && shouldAddLastBraking activePwle braking then
        [PrimitivePwle.braking (brakingPwle braking 0)]
      else
        []
    (pushed :: (trailing ++ tail.1), tail.2 + activePwle.duration)

/-- The compilation performed by `vibratorPerformPwleEffect` before the HAL
call: the primitive sequence and `totalDuration` (lines 304-319). -/
def compilePwle (waveform : List ActivePwle) (braking : Braking) :
    List PrimitivePwle × ℤ :=
  pwleLoop braking waveform.length 0 waveform

/-- `vibrator::HalResult<T>`: `Ok(T)`, `Unsupported`, or `Failed`. -/
inductive HalResult (α : Type)
  | ok (value : α)
  | unsupported
  | failed
deriving DecidableEq, Repr

/-- `HalResult::isOk`. -/
def HalResult.isOk {α : Type} : HalResult α → Bool
  | .ok _ => true
  | _ => false

/-- `HalResult::isUnsupported`. -/
def HalResult.isUnsupported {α : Type} : HalResult α → Bool
  | .unsupported => true
  | _ => false

/-- `HalResult::valueOr`: the contained value when `ok`, else the default. -/
def HalResult.valueOr {α : Type} : HalResult α → α → α
  | .ok value, _ => value
  | _, defaultValue => defaultValue

/-- Return value of `vibratorOn` (lines 206-219) for a live wrapper, given
the outcome of the HAL `on` call: `timeoutMs` when ok, `0` when
unsupported, `-1` otherwise. -/
def vibratorOn (timeoutMs : ℤ) (result : HalResult Unit) : ℤ :=
  if result.isOk then timeoutMs else if result.isUnsupported then 0 else -1

/-- Return value of `vibratorPerformPwleEffect` (lines 295-327) for a live
wrapper: compiles the waveform, then reports the compiler-computed
`totalDuration` when the HAL call is ok, `0` when unsupported, `-1`
otherwise (the HAL `performPwleEffect` returns void, so no
hardware-reported duration exists). -/
def vibratorPerformPwleEffect (waveform : List ActivePwle) (braking : Braking)
    (result : HalResult Unit) : ℤ :=
  let compiled := compilePwle waveform braking
  if result.isOk then compiled.2 else if result.isUnsupported then 0 else -1

/-- A `jfloat` value as produced by `vibratorGetInfo`: either the IEEE NaN
used as the absent sentinel, or an ordinary numeric value. -/
inductive JFloat
  | nan
  | val (x : ℚ)
deriving DecidableEq, Repr

/-- The C macro `NAN`. -/
def NAN : JFloat := JFloat.nan

/-- `vibrator::Capabilities::NONE`: the empty capability bitmask (0). -/
def CapabilitiesNONE : ℤ := 0

/-- `vibrator::Info`: each hardware-reported field wrapped in `HalResult`
(lines 362-398 read these). -/
structure Info where
  capabilities : HalResult ℤ
  minFrequency : HalResult JFloat
  resonantFrequency : HalResult JFloat
  frequencyResolution : HalResult JFloat
  qFactor : HalResult JFloat
  supportedEffects : HalResult (List ℤ)
  supportedBraking : HalResult (List ℤ)
  supportedPrimitives : HalResult (List ℤ)
  maxAmplitudes : HalResult (List JFloat)
deriving DecidableEq, Repr

/-- The `android.os.VibratorInfo$FrequencyMapping` object built at line 400:
scalar floats plus a nullable `float[]` (represented by `Option`). -/
structure FrequencyMapping where
  minFrequency : JFloat
  resonantFrequency : JFloat
  frequencyResolution : JFloat
  suggestedSafeRange : JFloat
  maxAmplitudes : Option (List JFloat)
deriving DecidableEq, Repr

/-- The `android.os.VibratorInfo` object built at line 404: id, capability
bitmask, nullable `int[]` sets, qFactor and the frequency mapping. -/
structure VibratorInfoJava where
  vibratorId : ℤ
  capabilities : ℤ
  supportedEffects : Option (List ℤ)
  supportedBraking : Option (List ℤ)
  supportedPrimitives : Option (List ℤ)
  qFactor : JFloat
  frequencyMapping : FrequencyMapping
deriving DecidableEq, Repr

/-- Field mapping of `vibratorGetInfo` (lines 355-407) for a live wrapper:
scalar fields via `valueOr(NAN)` / `valueOr(Capabilities::NONE)`, array
fields become null (`none`) unless `isOk`. -/
def vibratorGetInfo (vibratorId : ℤ) (info : Info) (suggestedSafeRange : JFloat) :
    VibratorInfoJava :=
  { vibratorId := vibratorId
    capabilities := info.capabilities.valueOr CapabilitiesNONE
    supportedEffects :=
      if info.supportedEffects.isOk then some (info.supportedEffects.valueOr []) else none
    supportedBraking :=
      if info.supportedBraking.isOk then some (info.supportedBraking.valueOr []) else none
    supportedPrimitives :=
      if info.supportedPrimitives.isOk then some (info.supportedPrimitives.valueOr []) else none
    qFactor := info.qFactor.valueOr NAN
    frequencyMapping :=
      { minFrequency := info.minFrequency.valueOr NAN
        resonantFrequency := info.resonantFrequency.valueOr NAN
        frequencyResolution := info.frequencyResolution.valueOr NAN
        suggestedSafeRange := suggestedSafeRange
        maxAmplitudes :=
          if info.maxAmplitudes.isOk then some (info.maxAmplitudes.valueOr []) else none } }

/-- The state a live `VibratorControllerWrapper` holds that the completion
callback reads: the immutable vibrator id and the global listener
reference (modelled as an opaque integer token). -/
structure ControllerState where
  vibratorId : ℤ
  callbackListener : ℤ
deriving DecidableEq, Repr

/-- The closure returned by `VibratorControllerWrapper::createCallback`
(lines 123-129): it captures the raw `this` pointer (modelled as a heap
address) and the `vibrationId`, by value. -/
structure Callback where
  controllerRef : ℕ
  vibrationId : ℤ
deriving DecidableEq, Repr

/-- `createCallback(vibrationId)`: capture `this` and `vibrationId`. -/
def createCallback (controllerRef : ℕ) (vibrationId : ℤ) : Callback :=
  { controllerRef := controllerRef, vibrationId := vibrationId }

/-- Outcome of invoking a completion callback: either the listener call
`onComplete(mVibratorId, vibrationId)` made through a live controller, or
an access through a dangling `this` to freed controller state. -/
inductive InvokeOutcome
  | delivered (listener : ℤ) (vibratorId : ℤ) (vibrationId : ℤ)
  | useAfterFree
deriving DecidableEq, Repr

/-- Semantics of invoking the closure body of `createCallback` against a
heap of controllers (`none` marks a destroyed controller).  The closure
dereferences `this` unconditionally — there is no liveness check in the
source — so on a freed controller the access is a use-after-free. -/
def invokeCallback (heap : ℕ → Option ControllerState) (callback : Callback) :
    InvokeOutcome :=
  match heap callback.controllerRef with
  | some controller =>
      InvokeOutcome.delivered controller.callbackListener controller.vibratorId
        callback.vibrationId
  | none => InvokeOutcome.useAfterFree

/-- The segment pushed for index `i` by one iteration of the compile loop
(lines 309-313), as a function of the segment alone. -/
def pushedSeg (braking : Braking) (i : ℕ) (activePwle : ActivePwle) : PrimitivePwle :=
  if (decide (i > 0)) && shouldBeReplacedWithBraking activePwle braking then
    PrimitivePwle.braking (brakingPwle braking activePwle.duration)
  else
    PrimitivePwle.active activePwle

/-- The per-index pushes of the compile loop, starting at index `i`. -/
def pushedAll (braking : Braking) : ℕ → List ActivePwle → List PrimitivePwle
  | _, [] => []
  | i, activePwle :: rest => pushedSeg braking i activePwle :: pushedAll braking (i + 1) rest

/-- The trailing zero-duration braking segment appended after the last
input segment (lines 316-318), when any. -/
def lastBrakingTail (braking : Braking) (waveform : List ActivePwle) : List PrimitivePwle :=
  match waveform.getLast? with
  | some lastActivePwle =>
      if shouldAddLastBraking lastActivePwle braking then
        [PrimitivePwle.braking (brakingPwle braking 0)]
      else
        []
  | none => []

/-- Concrete inputs used by the end-to-end scenario of the spec and by the
witnesses. -/
def scenarioA : List ActivePwle :=
  [⟨0, 0, 0, 0, 10⟩, ⟨mkRat 1 2, 0, 0, 0, 20⟩]

/-- An `Info` whose every hardware-reported field is absent. -/
def infoAllAbsent : Info :=
  ⟨.unsupported, .unsupported, .unsupported, .unsupported, .unsupported,
   .unsupported, .unsupported, .unsupported, .unsupported⟩

/-- An `Info` whose capability bitmask is explicitly reported as empty. -/
def infoCapsEmptyBitmask : Info :=
  { infoAllAbsent with capabilities := HalResult.ok 0 }

/-- A heap hosting one live controller at address 5. -/
def liveHeapExample : ℕ → Option ControllerState :=
  fun ref => if ref = 5 then some ⟨7, 11⟩ else none

/-- A heap in which every controller has been destroyed. -/
def freedHeap : ℕ → Option ControllerState := fun _ => none

lemma HalResult.valueOr_of_not_isOk {α : Type} {r : HalResult α} (h : r.isOk = false)
    (d : α) : r.valueOr d = d := by
  cases r with
  | ok v => simp [HalResult.isOk] at h
  | unsupported => rfl
  | failed => rfl

lemma pwleLoop_snd (braking : Braking) (size : ℕ) (waveform : List ActivePwle) :
    ∀ i, (pwleLoop braking size i waveform).2 = (waveform.map ActivePwle.duration).sum := by
  induction waveform with
  | nil => intro i; simp [pwleLoop]
  | cons activePwle rest ih =>
      intro i
      simp only [pwleLoop, List.map_cons, List.sum_cons]
      rw [ih (i + 1)]
      ring

lemma pwleLoop_fst (braking : Braking) (waveform : List ActivePwle) :
    ∀ (i size : ℕ), size = i + waveform.length →
      (pwleLoop braking size i waveform).1 =
        pushedAll braking i waveform ++ lastBrakingTail braking waveform := by
  induction waveform with
  | nil =>
      intro i size h
      simp [pwleLoop, pushedAll, lastBrakingTail]
  | cons activePwle rest ih =>
      intro i size h
      cases rest with
      | nil =>
          have hsize : i = size - 1 := by simp at h; omega
          simp only [pwleLoop, pushedAll, lastBrakingTail, pushedSeg, List.getLast?_singleton,
            ← hsize, decide_True, Bool.true_and, List.append_nil]
          cases shouldAddLastBraking activePwle braking <;> simp
      | cons next rest2 =>
          have hne : ¬ (i = size - 1) := by simp at h; omega
          have ihnext := ih (i + 1) size (by simp at h ⊢; omega)
          simp only [pwleLoop, pushedAll, pushedSeg, lastBrakingTail,
            List.getLast?_cons_cons] at ihnext ⊢
          rw [ihnext]
          simp [hne]

lemma compilePwle_fst (waveform : List ActivePwle) (braking : Braking) :
    (compilePwle waveform braking).1 =
      pushedAll braking 0 waveform ++ lastBrakingTail braking waveform :=
  pwleLoop_fst braking waveform 0 waveform.length (by omega)

lemma pushedAll_length (braking : Braking) (waveform : List ActivePwle) :
    ∀ i, (pushedAll braking i waveform).length = waveform.length := by
  induction waveform with
  | nil => intro i; rfl
  | cons activePwle rest ih => intro i; simp [pushedAll, ih (i + 1)]

lemma pushedAll_get? (braking : Braking) (waveform : List ActivePwle) :
    ∀ i j, (pushedAll braking i waveform).get? j =
      (waveform.get? j).map (fun p => pushedSeg braking (i + j) p) := by
  induction waveform with
  | nil => intro i j; simp [pushedAll]
  | cons activePwle rest ih =>
      intro i j
      cases j with
      | zero => simp [pushedAll]
      | succ j2 =>
          have harith : i + 1 + j2 = i + (j2 + 1) := by omega
          simp only [pushedAll, List.get?_cons_succ, ih (i + 1) j2, harith]

lemma pushedAll_none (waveform : List ActivePwle) :
    ∀ i, pushedAll Braking.NONE i waveform = waveform.map PrimitivePwle.active := by
  induction waveform with
  | nil => intro i; rfl
  | cons activePwle rest ih =>
      intro i
      simp [pushedAll, pushedSeg, shouldBeReplacedWithBraking, ih (i + 1)]

lemma lastBrakingTail_none (waveform : List ActivePwle) :
    lastBrakingTail Braking.NONE waveform = [] := by
  unfold lastBrakingTail
  cases waveform.getLast? with
  | none => rfl
  | some lastActivePwle => simp [shouldAddLastBraking]

/-- Waveform with a zero-amplitude segment in a non-initial position. -/
def waveformMidZero : List ActivePwle := [⟨1, 1, 0, 0, 5⟩, ⟨0, 0, 0, 0, 7⟩]

/-- Waveform whose single (hence last) segment decays from 1 to 0. -/
def waveformDecay : List ActivePwle := [⟨1, 0, 0, 0, 5⟩]

/-- Claim C1 (counterexample): compiling the two-segment envelope
`[{0,0,10}, {0.5,0,20}]` with braking CLICK does NOT yield the claimed
sequence starting with `BrakingSegment(CLICK, 10)` — the replacement rule
requires `i > 0`, so the zero-amplitude first segment passes through as an
envelope segment. -/
theorem scenarioA_claimed_output_refuted :
    (compilePwle scenarioA Braking.CLICK).1 ≠
      [PrimitivePwle.braking (brakingPwle Braking.CLICK 10),
       PrimitivePwle.active ⟨mkRat 1 2, 0, 0, 0, 20⟩,
       PrimitivePwle.braking (brakingPwle Braking.CLICK 0)] := by
  decide

/-- Claim C1 (amended): compiling `[{0,0,10}, {0.5,0,20}]` with braking
CLICK yields `[Envelope(0,0,10), Envelope(0.5,0,20), Braking(CLICK,0)]`
and `totalDurationMs = 30`: the first segment is kept because the braking
replacement only applies at indices `i > 0`. -/
theorem scenarioA_compiled :
    compilePwle scenarioA Braking.CLICK =
      ([PrimitivePwle.active ⟨0, 0, 0, 0, 10⟩,
        PrimitivePwle.active ⟨mkRat 1 2, 0, 0, 0, 20⟩,
        PrimitivePwle.braking (brakingPwle Braking.CLICK 0)], 30) := by
  decide

/-- Claim C2 (counterexample): `vibratorGetInfo` maps an absent
`minFrequency` to the NaN sentinel and an absent capability bitmask to the
numeric default `Capabilities::NONE`, which is indistinguishable from a
hardware-reported empty bitmask — not to an explicit absent marker. -/
theorem getInfo_sentinel_counterexample :
    (vibratorGetInfo 0 infoAllAbsent (JFloat.val 0)).frequencyMapping.minFrequency = NAN ∧
    (vibratorGetInfo 0 infoAllAbsent (JFloat.val 0)).capabilities = CapabilitiesNONE ∧
    (vibratorGetInfo 0 infoAllAbsent (JFloat.val 0)).capabilities =
      (vibratorGetInfo 0 infoCapsEmptyBitmask (JFloat.val 0)).capabilities := by
  decide

/-- Claim C2 (amended): in the snapshot built by `vibratorGetInfo`, absent
array-valued fields (supported effects / braking / primitives, max
amplitudes) do map to the explicit absent marker null; but absent scalar
float fields map to the NaN sentinel, and an absent capability bitmask
maps to the numeric default `Capabilities::NONE` (0). -/
theorem getInfo_absent_mapping (vibratorId : ℤ) (info : Info) (r : JFloat) :
    (info.minFrequency.isOk = false →
      (vibratorGetInfo vibratorId info r).frequencyMapping.minFrequency = NAN) ∧
    (info.resonantFrequency.isOk = false →
      (vibratorGetInfo vibratorId info r).frequencyMapping.resonantFrequency = NAN) ∧
    (info.frequencyResolution.isOk = false →
      (vibratorGetInfo vibratorId info r).frequencyMapping.frequencyResolution = NAN) ∧
    (info.qFactor.isOk = false →
      (vibratorGetInfo vibratorId info r).qFactor = NAN) ∧
    (info.capabilities.isOk = false →
      (vibratorGetInfo vibratorId info r).capabilities = CapabilitiesNONE) ∧
    (info.supportedEffects.isOk = false →
      (vibratorGetInfo vibratorId info r).supportedEffects = none) ∧
    (info.supportedBraking.isOk = false →
      (vibratorGetInfo vibratorId info r).supportedBraking = none) ∧
    (info.supportedPrimitives.isOk = false →
      (vibratorGetInfo vibratorId info r).supportedPrimitives = none) ∧
    (info.maxAmplitudes.isOk = false →
      (vibratorGetInfo vibratorId info r).frequencyMapping.maxAmplitudes = none) := by
  refine ⟨?_, ?_, ?_, ?_, ?_, ?_, ?_, ?_, ?_⟩ <;>
    intro h <;>
    simp [vibratorGetInfo, HalResult.valueOr_of_not_isOk h, h]

/-- Witness for the amended claim C2 at the all-absent info. -/
theorem getInfo_absent_mapping_witness :
    (infoAllAbsent.minFrequency.isOk = false ∧ infoAllAbsent.capabilities.isOk = false ∧
      infoAllAbsent.supportedEffects.isOk = false) ∧
    (vibratorGetInfo 0 infoAllAbsent (JFloat.val 0)).frequencyMapping.minFrequency = NAN ∧
    (vibratorGetInfo 0 infoAllAbsent (JFloat.val 0)).capabilities = CapabilitiesNONE ∧
    (vibratorGetInfo 0 infoAllAbsent (JFloat.val 0)).supportedEffects = none :=
  ⟨⟨by decide, by decide, by decide⟩,
   (getInfo_absent_mapping 0 infoAllAbsent (JFloat.val 0)).1 (by decide),
   (getInfo_absent_mapping 0 infoAllAbsent (JFloat.val 0)).2.2.2.2.1 (by decide),
   (getInfo_absent_mapping 0 infoAllAbsent (JFloat.val 0)).2.2.2.2.2.1 (by decide)⟩

/-- Claim C3: the `totalDuration` computed by the PWLE compilation equals
the sum of the input segments' durations, for every waveform and braking
kind, and the empty waveform compiles to the empty output with total 0. -/
theorem pwle_totalDuration_eq_sum (waveform : List ActivePwle) (braking : Braking) :
    (compilePwle waveform braking).2 = (waveform.map ActivePwle.duration).sum ∧
    compilePwle [] braking = ([], 0) :=
  ⟨pwleLoop_snd braking waveform.length waveform 0, rfl⟩

/-- Claim C4: whenever `i > 0`, braking ≠ NONE and segment `i` has start
and end amplitude exactly 0, position `i` of the compiled output is a
braking segment of the configured kind with the replaced segment's
duration, for every surrounding waveform. -/
theorem pwle_zero_segment_replaced (waveform : List ActivePwle) (braking : Braking)
    (i : ℕ) (hpos : 0 < i) (hlen : i < waveform.length) (hb : braking ≠ Braking.NONE)
    (hs : (waveform.get ⟨i, hlen⟩).startAmplitude = 0)
    (he : (waveform.get ⟨i, hlen⟩).endAmplitude = 0) :
    (compilePwle waveform braking).1.get? i =
      some (PrimitivePwle.braking (brakingPwle braking (waveform.get ⟨i, hlen⟩).duration)) := by
  have hs2 : waveform[i].startAmplitude = 0 := hs
  have he2 : waveform[i].endAmplitude = 0 := he
  rw [compilePwle_fst]
  rw [List.get?_append (by simpa [pushedAll_length] using hlen)]
  rw [pushedAll_get? braking waveform 0 i]
  rw [List.get?_eq_get hlen]
  simp [pushedSeg, shouldBeReplacedWithBraking, List.get_eq_getElem, hpos, hb, hs2, he2]

/-- Witness for claim C4 on a two-segment waveform. -/
theorem pwle_zero_segment_replaced_witness :
    ((0 : ℕ) < 1 ∧ 1 < waveformMidZero.length ∧ Braking.CLICK ≠ Braking.NONE) ∧
    (compilePwle waveformMidZero Braking.CLICK).1.get? 1 =
      some (PrimitivePwle.braking (brakingPwle Braking.CLICK 7)) :=
  ⟨⟨by decide, by decide, by decide⟩,
   pwle_zero_segment_replaced waveformMidZero Braking.CLICK 1 (by decide) (by decide)
     (by decide) (by decide) (by decide)⟩

/-- Claim C5: when the last segment ramps from a strictly positive start
amplitude to exactly 0 and braking ≠ NONE, the compiled output has exactly
one more element than the input, the extra last element being a
zero-duration braking segment. -/
theorem pwle_trailing_braking (waveform : List ActivePwle) (braking : Braking)
    (hne : waveform ≠ []) (hb : braking ≠ Braking.NONE)
    (hs : 0 < (waveform.getLast hne).startAmplitude)
    (he : (waveform.getLast hne).endAmplitude = 0) :
    (compilePwle waveform braking).1.length = waveform.length + 1 ∧
    (compilePwle waveform braking).1.getLast? =
      some (PrimitivePwle.braking (brakingPwle braking 0)) := by
  have hlast : waveform.getLast? = some (waveform.getLast hne) :=
    List.getLast?_eq_getLast waveform hne
  have htail : lastBrakingTail braking waveform =
      [PrimitivePwle.braking (brakingPwle braking 0)] := by
    simp [lastBrakingTail, hlast, shouldAddLastBraking, hb, hs, he]
  constructor
  · rw [compilePwle_fst, htail]
    simp [pushedAll_length]
  · rw [compilePwle_fst, htail]
    exact List.getLast?_concat _

/-- Witness for claim C5 on a single decaying segment. -/
theorem pwle_trailing_braking_witness :
    (waveformDecay ≠ [] ∧ Braking.CLICK ≠ Braking.NONE) ∧
    (compilePwle waveformDecay Braking.CLICK).1.length = waveformDecay.length + 1 ∧
    (compilePwle waveformDecay Braking.CLICK).1.getLast? =
      some (PrimitivePwle.braking (brakingPwle Braking.CLICK 0)) :=
  ⟨⟨by decide, by decide⟩,
   pwle_trailing_braking waveformDecay Braking.CLICK (by decide) (by decide)
     (by decide) (by decide)⟩

/-- Claim C6: with braking kind NONE the compilation is the identity on
the sequence — each segment passes through unchanged as an envelope
segment, the length is preserved, and no braking segment appears. -/
theorem pwle_braking_none_identity (waveform : List ActivePwle) (_hne : waveform ≠ []) :
    (compilePwle waveform Braking.NONE).1 = waveform.map PrimitivePwle.active ∧
    (compilePwle waveform Braking.NONE).1.length = waveform.length ∧
    ∀ p ∈ (compilePwle waveform Braking.NONE).1,
      ∀ bp : BrakingPwle, p ≠ PrimitivePwle.braking bp := by
  have hmain : (compilePwle waveform Braking.NONE).1 = waveform.map PrimitivePwle.active := by
    rw [compilePwle_fst, pushedAll_none, lastBrakingTail_none, List.append_nil]
  refine ⟨hmain, by rw [hmain]; simp, ?_⟩
  rw [hmain]
  intro p hp bp
  rcases List.mem_map.1 hp with ⟨s, _, rfl⟩
  simp

/-- Witness for claim C6 on a single segment. -/
theorem pwle_braking_none_identity_witness :
    waveformDecay ≠ [] ∧
    (compilePwle waveformDecay Braking.NONE).1 = waveformDecay.map PrimitivePwle.active :=
  ⟨by decide, (pwle_braking_none_identity waveformDecay (by decide)).1⟩

/-- Claim C7: `vibratorPerformPwleEffect` returns the compiler-computed
`totalDuration` when the HAL call is Ok, 0 when Unsupported, and the error
sentinel -1 when Failed. -/
theorem performPwle_returnValue (waveform : List ActivePwle) (braking : Braking) :
    vibratorPerformPwleEffect waveform braking (HalResult.ok ()) =
      (compilePwle waveform braking).2 ∧
    vibratorPerformPwleEffect waveform braking HalResult.unsupported = 0 ∧
    vibratorPerformPwleEffect waveform braking HalResult.failed = -1 :=
  ⟨rfl, rfl, rfl⟩

/-- Claim C8: `vibratorOn` returns the passed-in `timeoutMs` when the HAL
call is Ok, 0 when Unsupported, and the error sentinel -1 when Failed. -/
theorem vibratorOn_returnValue (timeoutMs : ℤ) :
    vibratorOn timeoutMs (HalResult.ok ()) = timeoutMs ∧
    vibratorOn timeoutMs HalResult.unsupported = 0 ∧
    vibratorOn timeoutMs HalResult.failed = -1 :=
  ⟨rfl, rfl, rfl⟩

/-- Claim C9: a completion callback invoked while its controller is live
delivers exactly the `(actuatorId, requestId)` pair it was constructed
with — the controller's own vibrator id and the unchanged vibration id. -/
theorem callback_delivers_constructed_pair (heap : ℕ → Option ControllerState)
    (controllerRef : ℕ) (controller : ControllerState) (vibrationId : ℤ)
    (hlive : heap controllerRef = some controller) :
    invokeCallback heap (createCallback controllerRef vibrationId) =
      InvokeOutcome.delivered controller.callbackListener controller.vibratorId
        vibrationId := by
  simp [invokeCallback, createCallback, hlive]

/-- Witness for claim C9 on a heap with one live controller. -/
theorem callback_delivers_constructed_pair_witness :
    liveHeapExample 5 = some ⟨7, 11⟩ ∧
    invokeCallback liveHeapExample (createCallback 5 42) =
      InvokeOutcome.delivered 11 7 42 :=
  ⟨rfl, callback_delivers_constructed_pair liveHeapExample 5 ⟨7, 11⟩ 42 rfl⟩

/-- Claim C10 (code evaluation at the failing input): the closure built by
`createCallback` captures the raw `this` pointer and dereferences it
unconditionally, so invoking it after the controller has been destroyed is
a use-after-free — the source contains no teardown check that would drop
the notification safely. -/
theorem callback_after_teardown_use_after_free :
    invokeCallback freedHeap (createCallback 0 1) = InvokeOutcome.useAfterFree := rfl

end VibratorController
